import Mathlib

/-!
Shallow embedding of the knowledge retrieval subsystem of the repository
(src/agents/knowledge_retrieval.py): the article data model, the flat L2
vector index, similarity search, distance-to-relevance scoring, the LLM
fusion step with its JSON-recovery logic, and the error handling of
retrieve_knowledge.  Numeric values are modelled with rationals, the
sentence-transformer encoder is an abstract function stored in the agent
state, and the Anthropic client reply is an explicit input datum.
-/

/-- Characters removed by the Python str.strip method (ASCII whitespace:
space, tab, line feed, carriage return, vertical tab, form feed). -/
def isPyWs (c : Char) : Bool :=
  [32, 9, 10, 13, 11, 12].contains c.toNat

/-- Python str.strip on a character list. -/
def pyStripL (cs : List Char) : List Char :=
  ((cs.dropWhile isPyWs).reverse.dropWhile isPyWs).reverse

/-- Python substring membership test, the in operator on str. -/
def pyIn (needle hay : List Char) : Bool :=
  needle.isPrefixOf hay ||
    match hay with
    | [] => false
    | _ :: t => pyIn needle t

/-- JSON values: the result type of the Python json.loads boundary. -/
inductive Json where
  | null
  | bool (b : Bool)
  | num (q : ℚ)
  | str (s : String)
  | arr (elems : List Json)
  | obj (members : List (String × Json))

/-- Last-wins lookup among object members, as in a Python dict built by
json.loads, where a duplicated key keeps the value seen last. -/
def lookupMember (ms : List (String × Json)) (key : String) : Option Json :=
  match ms with
  | [] => none
  | m :: rest =>
    match lookupMember rest key with
    | some v => some v
    | none => if m.1 == key then some m.2 else none

/-- JSON whitespace accepted between tokens by the Python json parser:
space, tab, line feed, carriage return. -/
def isJsonWs (c : Char) : Bool :=
  [32, 9, 10, 13].contains c.toNat

/-- Skip JSON inter-token whitespace. -/
def skipWs (cs : List Char) : List Char := cs.dropWhile isJsonWs

/-- Table of backslash escapes accepted inside a JSON string literal,
pairing the escape letter with the decoded code point. -/
def escTable : List (Char × ℕ) :=
  [('"', 34), ('\\', 92), ('/', 47), ('n', 10), ('t', 9), ('r', 13), ('b', 8), ('f', 12)]

/-- Decoded character for a backslash escape inside a JSON string literal. -/
def escChar (c : Char) : Option Char :=
  (escTable.find? (fun p => p.1 == c)).map (fun p => Char.ofNat p.2)

/-- Body of a JSON string literal after the opening quote: plain characters
and simple escapes up to the closing quote.  Raw control characters are
rejected, as by json.loads in strict mode. -/
def parseStrBody (acc : List Char) : List Char → Option (String × List Char)
  | [] => none
  | '"' :: rest => some (String.mk acc.reverse, rest)
  | '\\' :: [] => none
  | '\\' :: e :: rest =>
    match escChar e with
    | some c => parseStrBody (c :: acc) rest
    | none => none
  | c :: rest => if c.toNat < 32 then none else parseStrBody (c :: acc) rest

/-- Consume the expected tail of a keyword literal. -/
def expectTail (lit : String) (cs : List Char) : Option (List Char) :=
  if lit.data.isPrefixOf cs then some (cs.drop lit.length) else none

/-- Decimal value of a digit run. -/
def digitsVal (ds : List Char) : ℕ :=
  ds.foldl (fun n c => 10 * n + (c.toNat - 48)) 0

/-- JSON number: optional minus, integer part without leading zeros,
optional fraction, optional exponent. -/
def parseNum (cs : List Char) : Option (ℚ × List Char) :=
  let p0 : Bool × List Char :=
    match cs with
    | '-' :: r => (true, r)
    | _ => (false, cs)
  let neg := p0.1
  let cs1 := p0.2
  let ip := cs1.takeWhile Char.isDigit
  let cs2 := cs1.dropWhile Char.isDigit
  if ip.isEmpty then none
  else if ip.length > 1 && ip.headD '0' == '0' then none
  else
    let fracStep : Option (List Char × List Char) :=
      match cs2 with
      | '.' :: r =>
        let fp := r.takeWhile Char.isDigit
        if fp.isEmpty then none else some (fp, r.dropWhile Char.isDigit)
      | _ => some ([], cs2)
    match fracStep with
    | none => none
    | some (fp, cs3) =>
      let expStep : Option (ℤ × List Char) :=
        match cs3 with
        | c :: r =>
          if c == 'e' || c == 'E' then
            match r with
            | '+' :: r2 =>
              let ds := r2.takeWhile Char.isDigit
              if ds.isEmpty then none
              else some ((digitsVal ds : ℤ), r2.dropWhile Char.isDigit)
            | '-' :: r2 =>
              let ds := r2.takeWhile Char.isDigit
              if ds.isEmpty then none
              else some (-(digitsVal ds : ℤ), r2.dropWhile Char.isDigit)
            | _ =>
              let ds := r.takeWhile Char.isDigit
              if ds.isEmpty then none
              else some ((digitsVal ds : ℤ), r.dropWhile Char.isDigit)
          else some (0, cs3)
        | [] => some (0, [])
      match expStep with
      | none => none
      | some (ex, rest) =>
        let mag : ℚ :=
          ((digitsVal ip : ℚ) + (digitsVal fp : ℚ) / ((10 : ℚ) ^ fp.length)) * (10 : ℚ) ^ ex
        some (if neg then -mag else mag, rest)

mutual

/-- One JSON value.  The fuel argument bounds the recursion depth; jsonLoads
supplies more fuel than any input of its length can consume. -/
def parseVal : ℕ → List Char → Option (Json × List Char)
  | 0, _ => none
  | fuel + 1, cs =>
    match skipWs cs with
    | [] => none
    | c :: rest =>
      if c == '"' then
        match parseStrBody [] rest with
        | some (s, r) => some (Json.str s, r)
        | none => none
      else if c == '\x7b' then parseMembers fuel rest true []
      else if c == '[' then parseElems fuel rest true []
      else if c == 't' then
        (expectTail "rue" rest).map (fun r => (Json.bool true, r))
      else if c == 'f' then
        (expectTail "alse" rest).map (fun r => (Json.bool false, r))
      else if c == 'n' then
        (expectTail "ull" rest).map (fun r => (Json.null, r))
      else if c == '-' || c.isDigit then
        match parseNum (c :: rest) with
        | some (q, r) => some (Json.num q, r)
        | none => none
      else none

/-- Members of a JSON object after the opening brace. -/
def parseMembers : ℕ → List Char → Bool → List (String × Json) →
    Option (Json × List Char)
  | 0, _, _, _ => none
  | fuel + 1, cs, isFirst, acc =>
    match skipWs cs with
    | [] => none
    | c :: rest =>
      if c == '\x7d' && isFirst then some (Json.obj acc.reverse, rest)
      else if c == '"' then
        match parseStrBody [] rest with
        | none => none
        | some (key, r1) =>
          match skipWs r1 with
          | ':' :: r2 =>
            match parseVal fuel r2 with
            | none => none
            | some (v, r3) =>
              match skipWs r3 with
              | ',' :: r4 => parseMembers fuel r4 false ((key, v) :: acc)
              | c2 :: r4 =>
                if c2 == '\x7d' then some (Json.obj ((key, v) :: acc).reverse, r4)
                else none
              | [] => none
          | _ => none
      else none

/-- Elements of a JSON array after the opening bracket. -/
def parseElems : ℕ → List Char → Bool → List Json → Option (Json × List Char)
  | 0, _, _, _ => none
  | fuel + 1, cs, isFirst, acc =>
    match skipWs cs with
    | [] => none
    | c :: rest =>
      if c == ']' && isFirst then some (Json.arr acc.reverse, rest)
      else
        match parseVal fuel (c :: rest) with
        | none => none
        | some (v, r1) =>
          match skipWs r1 with
          | ',' :: r2 => parseElems fuel r2 false (v :: acc)
          | c2 :: r2 =>
            if c2 == ']' then some (Json.arr ((v :: acc).reverse), r2) else none
          | [] => none

end

/-- Python json.loads restricted to the JSON fragment exercised at this
boundary: objects, arrays, strings with simple escapes, numbers, true,
false, null.  Returns none where json.loads raises an error, including
trailing garbage after the document. -/
def jsonLoads (s : String) : Option Json :=
  match parseVal (s.data.length + 4) s.data with
  | some (j, rest) => if (skipWs rest).isEmpty then some j else none
  | none => none

/-- A knowledge base article (dataclass Article). -/
structure Article where
  article_id : String
  title : String
  content : String
  category : String
  tags : List String

/-- Per-article judgment fused with the numeric ranking (dataclass
RetrievalResult).  summary and solution_steps hold whatever JSON values
the LLM reply supplied, since the Python dataclass performs no type check. -/
structure RetrievalResult where
  article_id : String
  title : String
  relevance_score : ℚ
  summary : Json
  solution_steps : Json

/-- Terminal artifact of a retrieval (dataclass KnowledgeRetrievalResult). -/
structure KnowledgeRetrievalResult where
  relevant_articles : List RetrievalResult
  recommended_solutions : Json
  related_issues : Json

/-- Relevance transform applied to a raw L2 distance
(knowledge_retrieval.py line 93): 1 / (1 + dist). -/
def relevanceScore (dist : ℚ) : ℚ := 1 / (1 + dist)

/-- Largest single-precision float, the distance faiss reports in padding
rows when fewer than k stored vectors exist. -/
def FLT_MAX : ℚ := 340282346638528859811704183484516925440

/-- Squared L2 distance over rationals, the metric of faiss.IndexFlatL2.
Vectors produced by one encoder share a dimension, so the componentwise
zip is total on every reachable input. -/
def squaredL2 (u v : List ℚ) : ℚ :=
  ((u.zip v).map (fun p => (p.1 - p.2) ^ 2)).sum

/-- Stable insertion of a scored row into an ascending-by-distance list. -/
def insertHit (x : ℤ × ℚ) : List (ℤ × ℚ) → List (ℤ × ℚ)
  | [] => [x]
  | y :: ys => if x.2 ≤ y.2 then x :: y :: ys else y :: insertHit x ys

/-- Ascending stable sort by distance; ties keep insertion order. -/
def sortHits : List (ℤ × ℚ) → List (ℤ × ℚ)
  | [] => []
  | x :: xs => insertHit x (sortHits xs)

/-- The faiss flat L2 index: the stored corpus vectors in insertion order. -/
structure IndexFlatL2 where
  vecs : List (List ℚ)

/-- faiss IndexFlatL2.search: the k nearest stored vectors by ascending
squared L2 distance, as (position, distance) rows; when fewer than k
stored vectors exist the result is padded to exactly k rows with position
-1 and distance FLT_MAX, as documented for faiss. -/
def IndexFlatL2.search (idx : IndexFlatL2) (q : List ℚ) (k : ℕ) : List (ℤ × ℚ) :=
  let top := (sortHits (idx.vecs.enum.map (fun p => ((p.1 : ℤ), squaredL2 q p.2)))).take k
  top ++ List.replicate (k - top.length) ((-1 : ℤ), FLT_MAX)

/-- State of a KnowledgeRetrievalAgent instance: the sentence-transformer
encoder (an abstract deterministic function), the optional faiss index and
the loaded article list. -/
structure KnowledgeRetrievalAgent where
  encode : String → List ℚ
  index : Option IndexFlatL2
  articles : List Article

/-- KnowledgeRetrievalAgent.load_knowledge_base (lines 70-81): store the
article list; when it is empty return at once, leaving any previous index
object in place; otherwise embed title ++ " " ++ content for every article
in list order and build a fresh flat L2 index over those embeddings. -/
def load_knowledge_base (st : KnowledgeRetrievalAgent) (articles : List Article) :
    KnowledgeRetrievalAgent :=
  let st1 := { st with articles := articles }
  if articles.isEmpty then st1
  else { st1 with
    index := some ⟨articles.map (fun a => st.encode (a.title ++ " " ++ a.content))⟩ }

/-- Python list subscript with a possibly negative index. -/
def pyListGet (l : List α) (i : ℤ) : Option α :=
  if 0 ≤ i then l.get? i.toNat
  else if 0 ≤ i + l.length then l.get? (i + l.length).toNat
  else none

/-- KnowledgeRetrievalAgent._search_similar_articles (lines 83-96): empty
result when no index was built or no articles are stored; otherwise run
the faiss search and keep every row whose position passes the guard
idx < len(self.articles), fetching self.articles[idx] with Python
subscript semantics and scoring it with relevanceScore. -/
def search_similar_articles (st : KnowledgeRetrievalAgent) (query : String) (k : ℕ) :
    List (Article × ℚ) :=
  match st.index with
  | none => []
  | some idx =>
    if st.articles.isEmpty then []
    else
      (idx.search (st.encode query) k).filterMap (fun p =>
        if p.1 < (st.articles.length : ℤ) then
          (pyListGet st.articles p.1).map (fun a => (a, relevanceScore p.2))
        else none)

/-- Fields of the ticket_analysis dict read by retrieve_knowledge. -/
structure TicketAnalysis where
  key_issues : List String
  customer_intent : String
  error_codes : List String
  category : String

/-- The optional search_params dict, reduced to its optional top_k entry. -/
structure SearchParams where
  top_k : Option ℕ

/-- Query string assembly (lines 99-102): space-joined key issues, then
the customer intent, then, only when error_codes is non-empty, the
space-joined error codes. -/
def buildSearchQuery (ta : TicketAnalysis) : String :=
  let base := String.intercalate " " ta.key_issues ++ " " ++ ta.customer_intent
  if ta.error_codes.isEmpty then base
  else base ++ " " ++ String.intercalate " " ta.error_codes

/-- k selection (line 104): search_params.get('top_k', 5) when
search_params is given, else 5. -/
def topK (sp : Option SearchParams) : ℕ :=
  match sp with
  | none => 5
  | some p => p.top_k.getD 5

/-- The backtick character, code point 96. -/
def tick : Char := Char.ofNat 96

/-- Test for the backtick character. -/
def isTick (c : Char) : Bool := c == tick

/-- startswith on three backticks, the opening-fence test of line 156. -/
def hasFenceHead (cs : List Char) : Bool :=
  match cs with
  | a :: b :: c :: _ => isTick a && isTick b && isTick c
  | _ => false

/-- The first re.sub of line 159 with the pattern exactly as written in
the source: a raw string holding caret, three backticks, the class
[a-zA-Z] starred, a doubled backslash, and an optional n.  As a regex the
doubled backslash matches one literal backslash character, so after the
backticks and the greedy letter run the input must contain a real
backslash (then optionally the letter n) for the substitution to fire;
otherwise the input is returned unchanged. -/
def subOpenFence (cs : List Char) : List Char :=
  match cs with
  | a :: b :: c :: rest =>
    if isTick a && isTick b && isTick c then
      match rest.dropWhile Char.isAlpha with
      | '\\' :: 'n' :: r => r
      | '\\' :: r => r
      | _ => cs
    else cs
  | _ => cs

/-- The second re.sub of line 160: remove a closing fence anchored at the
end of the string. -/
def dropCloseFence (cs : List Char) : List Char :=
  if hasFenceHead cs.reverse then (cs.reverse.drop 3).reverse else cs

/-- The code-fence stripping of lines 159-160 as implemented: strip, the
two substitutions, strip again. -/
def codeFenceStrip (raw : List Char) : List Char :=
  pyStripL (dropCloseFence (subOpenFence (pyStripL raw)))

/-- Modelled from the spec: the stripped reply text with the opening fence
and any language tag removed (together with the newline ending the fence
line) and the closing fence removed.  This is the transform the spec
describes for the single stripped reparse; the source differs in
subOpenFence. -/
def specFenceStrip (raw : List Char) : List Char :=
  let s := pyStripL raw
  let afterOpen :=
    match s with
    | a :: b :: c :: rest =>
      if isTick a && isTick b && isTick c then
        match rest.dropWhile Char.isAlpha with
        | '\n' :: r => r
        | r => r
      else s
    | _ => s
  pyStripL (dropCloseFence afterOpen)

/-- The two-attempt parse of the LLM reply text (lines 151-168): a raw
json.loads, then, only when the stripped text starts with a code fence,
exactly one more attempt on the fence-stripped text. -/
def parseLLMText (text : String) : Option Json :=
  match jsonLoads text with
  | some d => some d
  | none =>
    if hasFenceHead (pyStripL text.data) then
      jsonLoads (String.mk (codeFenceStrip text.data))
    else none

/-- Python substring membership on String values. -/
def pyInS (needle hay : String) : Bool := pyIn needle.data hay.data

/-- Python dict.get with a default, on a JSON value; calling .get on a
non-dict raises AttributeError, modelled as an error. -/
def Json.pyGet (j : Json) (key : String) (dflt : Json) : Except Unit Json :=
  match j with
  | Json.obj ms => Except.ok ((lookupMember ms key).getD dflt)
  | _ => Except.error ()

/-- Python len() on a JSON value; numbers, booleans and None raise
TypeError, modelled as an error. -/
def pyLen (j : Json) : Except Unit ℕ :=
  match j with
  | Json.arr xs => Except.ok xs.length
  | Json.str s => Except.ok s.length
  | Json.obj ms => Except.ok ((ms.map Prod.fst).dedup.length)
  | _ => Except.error ()

/-- Python subscript x[i] for a non-negative integer index. -/
def pyItem (j : Json) (i : ℕ) : Except Unit Json :=
  match j with
  | Json.arr xs =>
    match xs.get? i with
    | some x => Except.ok x
    | none => Except.error ()
  | Json.str s =>
    match s.data.get? i with
    | some c => Except.ok (Json.str (String.mk [c]))
    | none => Except.error ()
  | _ => Except.error ()

/-- The fusion loop of lines 170-180 over the enumerated top-3 candidate
list: candidate i is appended only when i < n, where n is the length of
the relevant_articles value of the parsed reply, and is then paired with
entry i of that value; entry fields default to an empty string and an
empty list through dict.get. -/
def fuseEntries (ra : Json) (n : ℕ) :
    List (ℕ × (Article × ℚ)) → Except Unit (List RetrievalResult)
  | [] => Except.ok []
  | (i, c) :: rest =>
    if i < n then do
      let entry ← pyItem ra i
      let summ ← entry.pyGet "summary" (Json.str "")
      let steps ← entry.pyGet "solution_steps" (Json.arr [])
      let tail ← fuseEntries ra n rest
      Except.ok (⟨c.1.article_id, c.1.title, c.2, summ, steps⟩ :: tail)
    else fuseEntries ra n rest

/-- Lines 170-186: assemble the KnowledgeRetrievalResult from the parsed
reply; an AttributeError, TypeError or IndexError raised here is caught by
the broad except handler of retrieve_knowledge. -/
def fuseResults (similar : List (Article × ℚ)) (d : Json) :
    Except Unit KnowledgeRetrievalResult := do
  let ra ← d.pyGet "relevant_articles" (Json.arr [])
  let n ← pyLen ra
  let results ← fuseEntries ra n (similar.take 3).enum
  let recs ← d.pyGet "recommended_solutions" (Json.arr [])
  let rel ← d.pyGet "related_issues" (Json.arr [])
  Except.ok ⟨results, recs, rel⟩

/-- One content block of an Anthropic message; the text field is none when
the block lacks a text attribute. -/
structure ContentBlock where
  text : Option String

/-- An Anthropic messages.create response as inspected by the code: the
optional stop_reason attribute and the optional content list. -/
structure MsgResponse where
  stop_reason : Option String
  content : Option (List ContentBlock)

/-- Outcome of the client.messages.create boundary call: a response
object, or one of the exception classes the code distinguishes, each
carrying its str(e) message. -/
inductive LLMCall where
  | ok (resp : MsgResponse)
  | notFoundError (msg : String)
  | badRequestError (msg : String)
  | otherError

/-- A normal successful reply carrying one text block. -/
def mkTextResponse (text : String) : MsgResponse :=
  ⟨none, some [⟨some text⟩]⟩

/-- The fixed fallback result of lines 107-112. -/
def noArticlesResult : KnowledgeRetrievalResult :=
  ⟨[],
   Json.arr [Json.str "No relevant articles found. Consider escalating to human support."],
   Json.arr []⟩

/-- KnowledgeRetrievalAgent.retrieve_knowledge (lines 98-202).  The result
distinguishes a normal return value (ok some), the sentinel None returned
on handled failures (ok none), and an exception re-raised to the caller
(error).  The prompt strings sent to the LLM are not modelled; the reply
is the llm input. -/
def retrieve_knowledge (st : KnowledgeRetrievalAgent) (ta : TicketAnalysis)
    (sp : Option SearchParams) (llm : LLMCall) :
    Except Unit (Option KnowledgeRetrievalResult) :=
  let similar := search_similar_articles st (buildSearchQuery ta) (topK sp)
  if similar.isEmpty then Except.ok (some noArticlesResult)
  else
    match llm with
    | LLMCall.ok resp =>
      if resp.stop_reason == some "refusal" then Except.ok none
      else
        match resp.content with
        | none => Except.ok none
        | some [] => Except.ok none
        | some (blk :: _) =>
          match blk.text with
          | none => Except.ok none
          | some text =>
            match parseLLMText text with
            | none => Except.ok none
            | some d =>
              match fuseResults similar d with
              | Except.ok r => Except.ok (some r)
              | Except.error _ => Except.ok none
    | LLMCall.notFoundError msg =>
      if pyInS "model" msg && pyInS "not_found_error" msg then Except.ok none
      else Except.error ()
    | LLMCall.badRequestError msg =>
      if pyInS "credit balance is too low" msg then Except.ok none
      else Except.error ()
    | LLMCall.otherError => Except.ok none

/-- The candidate articles included in the LLM judgment request: the
similar_articles[:3] slice used at lines 114-117 and 171. -/
def judgedCandidates (st : KnowledgeRetrievalAgent) (ta : TicketAnalysis)
    (sp : Option SearchParams) : List (Article × ℚ) :=
  (search_similar_articles st (buildSearchQuery ta) (topK sp)).take 3

/-- Bool test that a JSON value is an object. -/
def isObjB : Json → Bool
  | Json.obj _ => true
  | _ => false

/-- The fused record built by the loop of lines 174-180 for candidate c at
search rank i, given the judged entries array of the parsed reply. -/
def mkFused (entries : List Json) (i : ℕ) (c : Article × ℚ) : RetrievalResult :=
  match entries.get? i with
  | some (Json.obj ems) =>
    ⟨c.1.article_id, c.1.title, c.2,
     (lookupMember ems "summary").getD (Json.str ""),
     (lookupMember ems "solution_steps").getD (Json.arr [])⟩
  | _ => ⟨c.1.article_id, c.1.title, c.2, Json.str "", Json.arr []⟩

/-- Test encoder: one-dimensional embedding by string length. -/
def encW : String → List ℚ := fun s => [(s.length : ℚ)]

/-- Fixture article with embedding text of length 3. -/
def artW1 : Article := ⟨"A1", "t", "c", "cat", []⟩

/-- Fixture article with embedding text of length 5. -/
def artW2 : Article := ⟨"A2", "tt", "cc", "cat", []⟩

/-- Fixture article with embedding text of length 7. -/
def artW3 : Article := ⟨"A3", "ttt", "ccc", "cat", []⟩

/-- Fresh agent holding the test encoder and no corpus. -/
def agentW0 : KnowledgeRetrievalAgent := ⟨encW, none, []⟩

/-- Agent after loading a one-article corpus. -/
def stW1 : KnowledgeRetrievalAgent := load_knowledge_base agentW0 [artW1]

/-- Agent after loading a three-article corpus. -/
def stW3 : KnowledgeRetrievalAgent := load_knowledge_base agentW0 [artW1, artW2, artW3]

/-- Fixture ticket analysis with query text of length 3. -/
def taW : TicketAnalysis := ⟨["x"], "y", [], "c"⟩

/-- A fenced LLM reply: opening fence, language tag, a real newline, a
JSON object, a newline and the closing fence. -/
def fencedW : String := "```json\n\x7b\"recommended_solutions\": [\"r\"]\x7d\n```"

/-- An LLM reply judging two articles, the second without solution steps. -/
def textW1 : String :=
  "\x7b\"relevant_articles\": [\x7b\"summary\": \"s1\", \"solution_steps\": [\"a\"]\x7d, \x7b\"summary\": \"s2\"\x7d]\x7d"

/-- The judged entries array textW1 parses to. -/
def entriesW : List Json :=
  [Json.obj [("summary", Json.str "s1"), ("solution_steps", Json.arr [Json.str "a"])],
   Json.obj [("summary", Json.str "s2")]]

/-- The object members textW1 parses to. -/
def msW : List (String × Json) := [("relevant_articles", Json.arr entriesW)]

lemma mem_insertHit {x y : ℤ × ℚ} {l : List (ℤ × ℚ)} (h : x ∈ insertHit y l) :
    x = y ∨ x ∈ l := by
  induction l with
  | nil => simpa [insertHit] using h
  | cons z zs ih =>
    rw [insertHit] at h
    split at h
    · rcases List.mem_cons.mp h with h1 | h1
      · exact Or.inl h1
      · exact Or.inr h1
    · rcases List.mem_cons.mp h with h1 | h1
      · exact Or.inr (h1 ▸ List.mem_cons_self z zs)
      · rcases ih h1 with h2 | h2
        · exact Or.inl h2
        · exact Or.inr (List.mem_cons.mpr (Or.inr h2))

lemma mem_sortHits {x : ℤ × ℚ} {l : List (ℤ × ℚ)} (h : x ∈ sortHits l) : x ∈ l := by
  induction l with
  | nil => simp [sortHits] at h
  | cons z zs ih =>
    rw [sortHits] at h
    rcases mem_insertHit h with h1 | h1
    · exact h1 ▸ List.mem_cons_self z zs
    · exact List.mem_cons.mpr (Or.inr (ih h1))

lemma search_length (idx : IndexFlatL2) (q : List ℚ) (k : ℕ) :
    (idx.search q k).length = k := by
  rw [IndexFlatL2.search]
  have h : (List.take k (sortHits (idx.vecs.enum.map
      (fun p => ((p.1 : ℤ), squaredL2 q p.2))))).length ≤ k := by
    rw [List.length_take]; exact min_le_left _ _
  simp only [List.length_append, List.length_replicate]
  omega

lemma search_similar_length_le (st : KnowledgeRetrievalAgent) (query : String) (k : ℕ) :
    (search_similar_articles st query k).length ≤ k := by
  rw [search_similar_articles]
  match st.index with
  | none => simp
  | some idx =>
    by_cases h : st.articles.isEmpty
    · simp [h]
    · simp only [h, if_false]
      calc _ ≤ (idx.search (st.encode query) k).length := List.length_filterMap_le _ _
        _ = k := search_length idx _ k

lemma search_similar_nil (st : KnowledgeRetrievalAgent) (query : String) (k : ℕ)
    (h : st.articles = [] ∨ st.index = none) :
    search_similar_articles st query k = [] := by
  rw [search_similar_articles]
  rcases h with h | h
  · match hidx : st.index with
    | none => rfl
    | some idx => simp [h]
  · rw [h]

lemma retrieve_fallback (st : KnowledgeRetrievalAgent) (ta : TicketAnalysis)
    (sp : Option SearchParams) (llm : LLMCall)
    (h : search_similar_articles st (buildSearchQuery ta) (topK sp) = []) :
    retrieve_knowledge st ta sp llm = Except.ok (some noArticlesResult) := by
  simp [retrieve_knowledge, h]

/-- C4: the relevance score assigned to a search hit at distance d equals
1 / (1 + d); the score of distance 0 is 1, scores of non-negative
distances lie in (0, 1], strictly smaller distances score strictly
higher, and equal distances score equally. -/
theorem c4_relevance_scoring :
    relevanceScore 0 = 1 ∧
    (∀ d : ℚ, 0 ≤ d → 0 < relevanceScore d ∧ relevanceScore d ≤ 1) ∧
    (∀ d1 d2 : ℚ, 0 ≤ d1 → d1 < d2 → relevanceScore d2 < relevanceScore d1) ∧
    (∀ d1 d2 : ℚ, d1 = d2 → relevanceScore d1 = relevanceScore d2) := by
  refine ⟨by norm_num [relevanceScore], fun d hd => ⟨?_, ?_⟩,
    fun d1 d2 h1 h12 => ?_, fun d1 d2 h => by rw [h]⟩
  · rw [relevanceScore]
    exact one_div_pos.mpr (by linarith)
  · rw [relevanceScore, div_le_one (by linarith)]
    linarith
  · rw [relevanceScore, relevanceScore]
    exact one_div_lt_one_div_of_lt (by linarith) (by linarith)

/-- Witness for C4 at the concrete distances 0, 1 and 2. -/
theorem c4_relevance_scoring_witness :
    (0:ℚ) ≤ 1 ∧ (1:ℚ) < 2 ∧ relevanceScore 2 < relevanceScore 1 :=
  ⟨by norm_num, by norm_num,
   c4_relevance_scoring.2.2.1 1 2 (by norm_num) (by norm_num)⟩

/-- C2: evaluation of the search at a failing input for the search
contract.  With a one-article corpus and k = 2 the faiss result is padded
with a row holding position -1 and distance FLT_MAX; the guard
idx < len(self.articles) admits -1, and the Python subscript fetches the
last article again, so the search returns the single corpus article twice
instead of exactly once. -/
theorem c2_search_padding_duplicate :
    stW1.articles.length = 1 ∧
    search_similar_articles stW1 "q" 2 =
      [(artW1, relevanceScore 4), (artW1, relevanceScore FLT_MAX)] ∧
    (search_similar_articles stW1 "q" 2).length = 2 :=
  ⟨by with_unfolding_all rfl, by with_unfolding_all rfl, by with_unfolding_all rfl⟩

/-- C8: evaluation of the fence-recovery path at a failing input.  The
reply is a normal fenced JSON object with a real newline after the
language tag; the raw parse fails and the text does start with a fence,
but the first re.sub pattern demands a literal backslash after the
language tag, so the opening fence survives codeFenceStrip, the reparse
fails too and retrieve_knowledge returns the sentinel, although the text
with both fences removed (specFenceStrip, as the spec describes the
stripped reparse) parses fine. -/
theorem c8_fence_strip_failing_input :
    jsonLoads fencedW = none ∧
    hasFenceHead (pyStripL fencedW.data) = true ∧
    jsonLoads (String.mk (specFenceStrip fencedW.data)) =
      some (Json.obj [("recommended_solutions", Json.arr [Json.str "r"])]) ∧
    codeFenceStrip fencedW.data =
      ("```json\n\x7b\"recommended_solutions\": [\"r\"]\x7d").data ∧
    parseLLMText fencedW = none ∧
    retrieve_knowledge stW1 taW none (LLMCall.ok (mkTextResponse fencedW)) =
      Except.ok none :=
  ⟨by with_unfolding_all rfl, by with_unfolding_all rfl, by with_unfolding_all rfl,
   by with_unfolding_all rfl, by with_unfolding_all rfl, by with_unfolding_all rfl⟩

/-- C10: loading an empty article list in any state empties the stored
article list and leaves the previously built index object untouched, yet
every subsequent retrieval returns the no-articles fallback, because the
similarity search bails out on an empty article list before consulting
the stale index. -/
theorem c10_empty_reload_shortcircuit (st : KnowledgeRetrievalAgent)
    (ta : TicketAnalysis) (sp : Option SearchParams) (llm : LLMCall) :
    (load_knowledge_base st []).articles = [] ∧
    (load_knowledge_base st []).index = st.index ∧
    retrieve_knowledge (load_knowledge_base st []) ta sp llm =
      Except.ok (some noArticlesResult) := by
  have hload : load_knowledge_base st [] = { st with articles := [] } := by
    simp [load_knowledge_base]
  refine ⟨by rw [hload], by rw [hload], ?_⟩
  exact retrieve_fallback _ ta sp llm (search_similar_nil _ _ _ (Or.inl (by rw [hload])))

/-- C3: whenever the similarity search yields zero neighbors, and in
particular whenever the corpus is empty or no corpus was loaded,
retrieve_knowledge returns the fixed fallback triple as a successful
outcome, for every possible LLM boundary behavior (so no LLM call can
influence the result). -/
theorem c3_fallback_correctness (st : KnowledgeRetrievalAgent)
    (ta : TicketAnalysis) (sp : Option SearchParams)
    (h : search_similar_articles st (buildSearchQuery ta) (topK sp) = []) :
    (∀ llm, retrieve_knowledge st ta sp llm = Except.ok (some noArticlesResult)) ∧
    noArticlesResult =
      ⟨[], Json.arr [Json.str
          "No relevant articles found. Consider escalating to human support."],
       Json.arr []⟩ ∧
    (∀ st2 : KnowledgeRetrievalAgent, ∀ ta2 sp2 llm2,
      st2.articles = [] ∨ st2.index = none →
      retrieve_knowledge st2 ta2 sp2 llm2 = Except.ok (some noArticlesResult)) := by
  refine ⟨fun llm => retrieve_fallback st ta sp llm h, rfl, ?_⟩
  intro st2 ta2 sp2 llm2 h2
  exact retrieve_fallback st2 ta2 sp2 llm2 (search_similar_nil _ _ _ h2)

/-- Witness for C3 at a fresh agent with no corpus. -/
theorem c3_fallback_correctness_witness :
    retrieve_knowledge agentW0 taW none LLMCall.otherError =
      Except.ok (some noArticlesResult) :=
  (c3_fallback_correctness agentW0 taW none (by with_unfolding_all rfl)).1
    LLMCall.otherError

/-- C6: the number of candidate articles included in the LLM judgment
request is at most min(top_k, 3), where top_k defaults to 5 when
search_params is absent or lacks the key, and is the caller value
otherwise. -/
theorem c6_judgment_k_bound (st : KnowledgeRetrievalAgent) (ta : TicketAnalysis)
    (sp : Option SearchParams) :
    (judgedCandidates st ta sp).length ≤ min (topK sp) 3 ∧
    topK none = 5 ∧ (∀ n, topK (some ⟨some n⟩) = n) ∧ topK (some ⟨none⟩) = 5 := by
  refine ⟨?_, rfl, fun n => rfl, rfl⟩
  have h1 : (search_similar_articles st (buildSearchQuery ta) (topK sp)).length ≤ topK sp :=
    search_similar_length_le st _ _
  rw [judgedCandidates, List.length_take]
  exact le_min (le_trans (min_le_right _ _) h1) (min_le_left _ _)

/-- C5 (amended): with neighbors found, each handled failure of the LLM
boundary (refusal, missing or empty or textless content, reply text
unparseable even after the fence-strip retry, NotFoundError whose message
mentions both model and not_found_error, BadRequestError whose message
mentions the low credit balance, and any other unanticipated exception)
yields the sentinel None; NotFoundError and BadRequestError messages not
matching those patterns are re-raised to the caller; and a non-sentinel
result is returned only when the reply text parsed and the fusion step
succeeded on the found candidates, so neither the numeric ranking alone
nor a silently-empty success can be returned on a failure. -/
theorem c5_failure_atomicity (st : KnowledgeRetrievalAgent) (ta : TicketAnalysis)
    (sp : Option SearchParams)
    (hne : (search_similar_articles st (buildSearchQuery ta) (topK sp)).isEmpty = false) :
    (∀ resp, resp.stop_reason = some "refusal" →
      retrieve_knowledge st ta sp (LLMCall.ok resp) = Except.ok none) ∧
    (∀ resp, (resp.content = none ∨ resp.content = some [] ∨
        (∃ blk rest, resp.content = some (blk :: rest) ∧ blk.text = none)) →
      retrieve_knowledge st ta sp (LLMCall.ok resp) = Except.ok none) ∧
    (∀ text, parseLLMText text = none →
      retrieve_knowledge st ta sp (LLMCall.ok (mkTextResponse text)) = Except.ok none) ∧
    (∀ msg, retrieve_knowledge st ta sp (LLMCall.notFoundError msg) =
      (if pyInS "model" msg && pyInS "not_found_error" msg then Except.ok none
       else Except.error ())) ∧
    (∀ msg, retrieve_knowledge st ta sp (LLMCall.badRequestError msg) =
      (if pyInS "credit balance is too low" msg then Except.ok none
       else Except.error ())) ∧
    retrieve_knowledge st ta sp LLMCall.otherError = Except.ok none ∧
    (∀ llm r, retrieve_knowledge st ta sp llm = Except.ok (some r) →
      ∃ resp text d, llm = LLMCall.ok resp ∧
        (∃ blk rest, resp.content = some (blk :: rest) ∧ blk.text = some text) ∧
        parseLLMText text = some d ∧
        fuseResults (search_similar_articles st (buildSearchQuery ta) (topK sp)) d =
          Except.ok r) := by
  refine ⟨?_, ?_, ?_, ?_, ?_, ?_, ?_⟩
  · intro resp hr
    simp [retrieve_knowledge, hne, hr]
  · intro resp hc
    by_cases hr : resp.stop_reason == some "refusal"
    · simp [retrieve_knowledge, hne, hr]
    · rcases hc with hc | hc | ⟨blk, rest, hc, ht⟩ <;>
        simp [retrieve_knowledge, hne, hr, hc]
      simp [ht]
  · intro text hp
    simp [retrieve_knowledge, hne, mkTextResponse, hp]
  · intro msg
    simp [retrieve_knowledge, hne]
  · intro msg
    simp [retrieve_knowledge, hne]
  · simp [retrieve_knowledge, hne]
  · intro llm r h
    cases llm with
    | ok resp =>
      by_cases hr : resp.stop_reason == some "refusal"
      · simp [retrieve_knowledge, hne, hr] at h
      · rcases hc : resp.content with _ | blks
        · simp [retrieve_knowledge, hne, hr, hc] at h
        · rcases blks with _ | ⟨blk, rest⟩
          · simp [retrieve_knowledge, hne, hr, hc] at h
          · rcases ht : blk.text with _ | text
            · simp [retrieve_knowledge, hne, hr, hc, ht] at h
            · rcases hp : parseLLMText text with _ | d
              · simp [retrieve_knowledge, hne, hr, hc, ht, hp] at h
              · rcases hf : fuseResults
                    (search_similar_articles st (buildSearchQuery ta) (topK sp)) d
                    with e | r2
                · simp [retrieve_knowledge, hne, hr, hc, ht, hp, hf] at h
                · refine ⟨resp, text, d, rfl, ⟨blk, rest, hc, ht⟩, hp, ?_⟩
                  simp [retrieve_knowledge, hne, hr, hc, ht, hp, hf] at h
                  rw [hf, h]
    | notFoundError msg =>
      have heq : retrieve_knowledge st ta sp (LLMCall.notFoundError msg) =
          (if pyInS "model" msg && pyInS "not_found_error" msg then Except.ok none
           else Except.error ()) := by simp [retrieve_knowledge, hne]
      rw [heq] at h
      split at h <;> simp at h
    | badRequestError msg =>
      have heq : retrieve_knowledge st ta sp (LLMCall.badRequestError msg) =
          (if pyInS "credit balance is too low" msg then Except.ok none
           else Except.error ()) := by simp [retrieve_knowledge, hne]
      rw [heq] at h
      split at h <;> simp at h
    | otherError =>
      have heq : retrieve_knowledge st ta sp LLMCall.otherError = Except.ok none := by
        simp [retrieve_knowledge, hne]
      rw [heq] at h
      exact absurd h (by simp)

/-- C5 counterexample: with neighbors found, a NotFoundError whose message
does not contain the model and not_found_error markers is re-raised to
the caller, not converted to the sentinel None required by the claim for
every boundary failure. -/
theorem c5_counterexample_reraise :
    retrieve_knowledge stW1 taW none (LLMCall.notFoundError "404") = Except.error () ∧
    retrieve_knowledge stW1 taW none (LLMCall.notFoundError "404") ≠ Except.ok none := by
  have h : retrieve_knowledge stW1 taW none (LLMCall.notFoundError "404") =
      Except.error () := by
    with_unfolding_all rfl
  exact ⟨h, by rw [h]; exact fun hc => Except.noConfusion hc⟩

/-- Witness for the amended C5 at a concrete loaded agent. -/
theorem c5_failure_atomicity_witness :
    retrieve_knowledge stW1 taW none LLMCall.otherError = Except.ok none :=
  (c5_failure_atomicity stW1 taW none (by with_unfolding_all rfl)).2.2.2.2.2.1

/-- C7: loading a non-empty corpus stores the articles in order, builds
the index over the embeddings of title ++ " " ++ content in the same
order, and for every query and k each search row with a non-negative
position i designates the i-th loaded article, both by plain list lookup
and through the Python subscript used by the search wrapper, so index
positions map back to article ids independently of the query. -/
theorem c7_corpus_alignment (st : KnowledgeRetrievalAgent) (articles : List Article)
    (h : articles ≠ []) :
    (load_knowledge_base st articles).articles = articles ∧
    (load_knowledge_base st articles).index =
      some ⟨articles.map (fun a => st.encode (a.title ++ " " ++ a.content))⟩ ∧
    (∀ q k i d,
      (i, d) ∈ (IndexFlatL2.mk (articles.map
          (fun a => st.encode (a.title ++ " " ++ a.content)))).search (st.encode q) k →
      0 ≤ i →
      ∃ a, articles.get? i.toNat = some a ∧ pyListGet articles i = some a) := by
  have hie : articles.isEmpty = false := by
    cases articles with
    | nil => exact absurd rfl h
    | cons a l => rfl
  refine ⟨by simp [load_knowledge_base, hie], by simp [load_knowledge_base, hie], ?_⟩
  intro q k i d hmem hnn
  rw [IndexFlatL2.search] at hmem
  rcases List.mem_append.mp hmem with hm | hm
  · have hm2 := mem_sortHits (List.take_subset _ _ hm)
    rcases List.mem_map.mp hm2 with ⟨p, hp, he⟩
    obtain ⟨j, v⟩ := p
    have hi : ((j : ℤ)) = i := congrArg Prod.fst he
    rw [List.enum_eq_enumFrom] at hp
    have hj := List.mem_enumFrom hp
    have hlen : j < articles.length := by
      have := hj.2.1
      simpa using this
    have htn : i.toNat = j := by rw [← hi]; simp
    refine ⟨articles.get ⟨j, hlen⟩, ?_, ?_⟩
    · rw [htn]; exact List.get?_eq_get hlen
    · rw [pyListGet, if_pos hnn, htn]; exact List.get?_eq_get hlen
  · have he := (List.mem_replicate.mp hm).2
    have hi : i = (-1 : ℤ) := congrArg Prod.fst he
    rw [hi] at hnn
    exact absurd hnn (by norm_num)

/-- Witness for C7 at the three-article corpus. -/
theorem c7_corpus_alignment_witness :
    (load_knowledge_base agentW0 [artW1, artW2, artW3]).articles =
        [artW1, artW2, artW3] ∧
    (load_knowledge_base agentW0 [artW1, artW2, artW3]).index =
      some ⟨[artW1, artW2, artW3].map
        (fun a => agentW0.encode (a.title ++ " " ++ a.content))⟩ :=
  ⟨(c7_corpus_alignment agentW0 [artW1, artW2, artW3] (by simp)).1,
   (c7_corpus_alignment agentW0 [artW1, artW2, artW3] (by simp)).2.1⟩

lemma except_bind_ok {ε α β : Type} (a : α) (f : α → Except ε β) :
    (Except.ok a : Except ε α) >>= f = f a := rfl

lemma fuseEntries_zero (ra : Json) (l : List (ℕ × (Article × ℚ))) :
    fuseEntries ra 0 l = Except.ok [] := by
  induction l with
  | nil => rfl
  | cons p rest ih =>
    obtain ⟨i, c⟩ := p
    simp [fuseEntries, ih]

lemma isObj_of_all {entries : List Json} (hall : entries.all isObjB = true)
    {e : Json} (he : e ∈ entries) : ∃ ems, e = Json.obj ems := by
  have h1 := (List.all_eq_true.mp hall) e he
  cases e with
  | null => exact absurd h1 (by simp [isObjB])
  | bool b => exact absurd h1 (by simp [isObjB])
  | num q => exact absurd h1 (by simp [isObjB])
  | str s => exact absurd h1 (by simp [isObjB])
  | arr xs => exact absurd h1 (by simp [isObjB])
  | obj ms => exact ⟨ms, rfl⟩

lemma fuseEntries_enumFrom (entries : List Json) (hall : entries.all isObjB = true) :
    ∀ (l : List (Article × ℚ)) (j : ℕ),
      fuseEntries (Json.arr entries) entries.length (List.enumFrom j l) =
        Except.ok ((List.enumFrom j (l.take (entries.length - j))).map
          (fun p => mkFused entries p.1 p.2)) := by
  intro l
  induction l with
  | nil => intro j; simp [fuseEntries]
  | cons c rest ih =>
    intro j
    rw [List.enumFrom_cons]
    by_cases hj : j < entries.length
    · have hget0 : entries.get? j = some (entries.get ⟨j, hj⟩) := List.get?_eq_get hj
      have hget : entries[j]? = some (entries.get ⟨j, hj⟩) := by
        rw [← List.get?_eq_getElem?]; exact hget0
      obtain ⟨ems, hems⟩ := isObj_of_all hall (List.get?_mem hget0)
      have hems2 : entries[j] = Json.obj ems := by
        simpa [List.get_eq_getElem] using hems
      have harith : entries.length - j = (entries.length - (j + 1)) + 1 := by omega
      rw [harith, List.take_succ_cons, List.enumFrom_cons]
      have hitem : pyItem (Json.arr entries) j = Except.ok (Json.obj ems) := by
        simp [pyItem, hget, hems2]
      simp only [fuseEntries, if_pos hj, hitem, except_bind_ok, Json.pyGet,
        ih (j + 1), List.map_cons]
      simp [mkFused, hget, hems2]
    · have h2 : entries.length - (j + 1) = 0 := by omega
      have harith : entries.length - j = 0 := by omega
      rw [harith]
      simp only [fuseEntries, if_neg hj, ih (j + 1), h2]
      simp

lemma fuseResults_obj (similar : List (Article × ℚ)) (ms : List (String × Json))
    (entries : List Json)
    (hra : lookupMember ms "relevant_articles" = some (Json.arr entries))
    (hall : entries.all isObjB = true) :
    fuseResults similar (Json.obj ms) =
      Except.ok ⟨(List.enumFrom 0 ((similar.take 3).take entries.length)).map
          (fun p => mkFused entries p.1 p.2),
        (lookupMember ms "recommended_solutions").getD (Json.arr []),
        (lookupMember ms "related_issues").getD (Json.arr [])⟩ := by
  simp [fuseResults, Json.pyGet, hra, pyLen, except_bind_ok, List.enum_eq_enumFrom,
    fuseEntries_enumFrom entries hall (similar.take 3) 0]

lemma retrieve_ok_parse (st : KnowledgeRetrievalAgent) (ta : TicketAnalysis)
    (sp : Option SearchParams) (text : String) (d : Json)
    (r : KnowledgeRetrievalResult)
    (hne : (search_similar_articles st (buildSearchQuery ta) (topK sp)).isEmpty = false)
    (hp : parseLLMText text = some d)
    (hf : fuseResults (search_similar_articles st (buildSearchQuery ta) (topK sp)) d =
      Except.ok r) :
    retrieve_knowledge st ta sp (LLMCall.ok (mkTextResponse text)) =
      Except.ok (some r) := by
  simp [retrieve_knowledge, hne, mkTextResponse, hp, hf]

/-- C1: when the search yields candidates, the parsed reply fixes an array
of m judged entries with m below the number n of top-3 candidates, and
every judged entry is an object, retrieve_knowledge succeeds with exactly
m fused records; record i carries the article_id, title and relevance
score of candidate i by search rank and the summary and solution steps of
judged entry i, and the n - m unmatched trailing candidates are absent. -/
theorem c1_positional_fusion_truncation (st : KnowledgeRetrievalAgent)
    (ta : TicketAnalysis) (sp : Option SearchParams) (text : String)
    (entries : List Json) (ms : List (String × Json))
    (hparse : parseLLMText text = some (Json.obj ms))
    (hra : lookupMember ms "relevant_articles" = some (Json.arr entries))
    (hall : entries.all isObjB = true)
    (hm : entries.length < (judgedCandidates st ta sp).length) :
    ∃ res, retrieve_knowledge st ta sp (LLMCall.ok (mkTextResponse text)) =
        Except.ok (some res) ∧
      res.relevant_articles.length = entries.length ∧
      (∀ i a s ems, (judgedCandidates st ta sp).get? i = some (a, s) →
        entries.get? i = some (Json.obj ems) →
        res.relevant_articles.get? i =
          some ⟨a.article_id, a.title, s,
                (lookupMember ems "summary").getD (Json.str ""),
                (lookupMember ems "solution_steps").getD (Json.arr [])⟩) := by
  have hne : (search_similar_articles st (buildSearchQuery ta) (topK sp)).isEmpty = false := by
    rcases hnil : search_similar_articles st (buildSearchQuery ta) (topK sp) with _ | ⟨c0, rest⟩
    · rw [judgedCandidates, hnil] at hm
      simp at hm
    · rfl
  refine ⟨_, retrieve_ok_parse st ta sp text (Json.obj ms) _ hne hparse
    (fuseResults_obj _ ms entries hra hall), ?_, ?_⟩
  · simp only [List.length_map, List.enumFrom_length]
    rw [judgedCandidates] at hm
    rw [List.length_take]
    exact min_eq_left hm.le
  · intro i a s ems hj hE
    have hiE : i < entries.length := by
      rcases List.get?_eq_some.mp hE with ⟨hlt, _⟩
      exact hlt
    have hjt : ((search_similar_articles st (buildSearchQuery ta) (topK sp)).take 3).get? i =
        some (a, s) := by
      rw [← judgedCandidates]
      exact hj
    have hE2 : entries[i]? = some (Json.obj ems) := by
      rw [← List.get?_eq_getElem?]; exact hE
    simp only [List.get?_map, List.enumFrom_get?, List.get?_take hiE, hjt, Option.map_some]
    simp [mkFused, hE2]

/-- Witness for C1: three candidates, two judged entries. -/
theorem c1_positional_fusion_truncation_witness :
    ∃ res, retrieve_knowledge stW3 taW none (LLMCall.ok (mkTextResponse textW1)) =
        Except.ok (some res) ∧
      res.relevant_articles.length = entriesW.length ∧
      (∀ i a s ems, (judgedCandidates stW3 taW none).get? i = some (a, s) →
        entriesW.get? i = some (Json.obj ems) →
        res.relevant_articles.get? i =
          some ⟨a.article_id, a.title, s,
                (lookupMember ems "summary").getD (Json.str ""),
                (lookupMember ems "solution_steps").getD (Json.arr [])⟩) :=
  c1_positional_fusion_truncation stW3 taW none textW1 entriesW msW
    (by with_unfolding_all rfl) (by with_unfolding_all rfl)
    (by with_unfolding_all rfl) (by with_unfolding_all decide)

/-- C9: when neighbors are found and the reply parses as a JSON object
lacking the relevant_articles, recommended_solutions and related_issues
keys, retrieve_knowledge still succeeds, substituting the empty defaults;
and a judged entry lacking summary or solution_steps is fused with an
empty-string summary and an empty step list. -/
theorem c9_missing_field_defaulting (st : KnowledgeRetrievalAgent)
    (ta : TicketAnalysis) (sp : Option SearchParams) (text : String)
    (ms : List (String × Json))
    (hne : (search_similar_articles st (buildSearchQuery ta) (topK sp)).isEmpty = false)
    (hparse : parseLLMText text = some (Json.obj ms))
    (hra : lookupMember ms "relevant_articles" = none)
    (hrec : lookupMember ms "recommended_solutions" = none)
    (hrel : lookupMember ms "related_issues" = none) :
    retrieve_knowledge st ta sp (LLMCall.ok (mkTextResponse text)) =
      Except.ok (some ⟨[], Json.arr [], Json.arr []⟩) ∧
    (∀ (ems : List (String × Json)) (a : Article) (s : ℚ),
      lookupMember ems "summary" = none → lookupMember ems "solution_steps" = none →
      fuseEntries (Json.arr [Json.obj ems]) 1 [(0, (a, s))] =
        Except.ok [⟨a.article_id, a.title, s, Json.str "", Json.arr []⟩]) := by
  constructor
  · have hfuse : fuseResults
        (search_similar_articles st (buildSearchQuery ta) (topK sp)) (Json.obj ms) =
        Except.ok ⟨[], Json.arr [], Json.arr []⟩ := by
      simp [fuseResults, Json.pyGet, hra, hrec, hrel, pyLen, except_bind_ok,
        fuseEntries_zero]
    exact retrieve_ok_parse st ta sp text (Json.obj ms) _ hne hparse hfuse
  · intro ems a s hsum hsteps
    simp [fuseEntries, pyItem, Json.pyGet, hsum, hsteps, except_bind_ok]

/-- Witness for C9 at a bare-object reply and a fused entry with no fields. -/
theorem c9_missing_field_defaulting_witness :
    retrieve_knowledge stW1 taW none (LLMCall.ok (mkTextResponse "\x7b\x7d")) =
      Except.ok (some ⟨[], Json.arr [], Json.arr []⟩) ∧
    fuseEntries (Json.arr [Json.obj []]) 1 [(0, (artW1, (1:ℚ)))] =
      Except.ok [⟨artW1.article_id, artW1.title, 1, Json.str "", Json.arr []⟩] := by
  have h := c9_missing_field_defaulting stW1 taW none "\x7b\x7d" []
    (by with_unfolding_all rfl) (by with_unfolding_all rfl) rfl rfl rfl
  exact ⟨h.1, h.2 [] artW1 1 rfl rfl⟩
